import Mathlib

/-!
Shallow embedding of the Ledger Normalization & Reporting Engine of
`bot.py` (Discord-Expense-Tracker-Bot).

Raw sheet rows are lists of cell strings; `get_processed_records` builds a
typed record set (pandas DataFrame) from them, coercing each column per the
source's `to_numeric` / `fillna` / `to_datetime` pipeline.  The reporting
commands (`balance`, `total`, `summary`, `history`, `chart`) filter that
record set by user and period and aggregate it.  Dates follow Python's
proleptic-Gregorian ordinal and `date.isocalendar` arithmetic, which is what
`pandas .dt.isocalendar()` and `datetime.now().isocalendar()` compute.
Monetary amounts are modelled as exact rationals.
-/

namespace Ledger

/-- A calendar date (proleptic Gregorian), as carried by a pandas Timestamp. -/
structure Date where
  year : Nat
  month : Nat
  day : Nat
deriving DecidableEq, Repr

/-- A timestamp: a calendar date plus seconds within the day. -/
structure DateTime where
  date : Date
  secs : Nat
deriving DecidableEq, Repr

/-- Gregorian leap-year rule, as in Python's `calendar.isleap`. -/
def isLeap (y : Nat) : Bool :=
  (y % 4 == 0 && y % 100 != 0) || y % 400 == 0

/-- Number of days in a month, as in Python's `calendar.monthrange`. -/
def daysInMonth (y m : Nat) : Nat :=
  if m = 2 then (if isLeap y then 29 else 28)
  else if m = 4 ∨ m = 6 ∨ m = 9 ∨ m = 11 then 30
  else 31

/-- Days in year `y` before the first of month `m`. -/
def daysBeforeMonth (y m : Nat) : Nat :=
  ((List.range (m - 1)).map (fun i => daysInMonth y (i + 1))).sum

/-- Python's `date.toordinal`: day number counting 0001-01-01 as day 1. -/
def toOrdinal (d : Date) : Nat :=
  let y := d.year - 1
  365 * y + y / 4 + y / 400 - y / 100 + daysBeforeMonth d.year d.month + d.day

/-- Python's `date.weekday()`: Monday = 0 … Sunday = 6. -/
def weekdayIdx (d : Date) : Nat :=
  (toOrdinal d + 6) % 7

/-- Ordinal of the Monday starting ISO week 1 of `year`
(Python `datetime._isoweek1monday`). -/
def isoWeek1Monday (year : Nat) : Int :=
  let firstday : Nat := toOrdinal ⟨year, 1, 1⟩
  let firstweekday : Nat := (firstday + 6) % 7
  let week1monday : Int := (firstday : Int) - (firstweekday : Int)
  if firstweekday > 3 then week1monday + 7 else week1monday

/-- The week component of Python's `date.isocalendar()` — the ISO-8601 week
number.  This is what `pandas .dt.isocalendar().week` yields per row. -/
def isoWeekNum (d : Date) : Int :=
  let today : Int := (toOrdinal d : Int)
  let week : Int := (today - isoWeek1Monday d.year).ediv 7
  if week < 0 then
    (today - isoWeek1Monday (d.year - 1)).ediv 7 + 1
  else if week ≥ 52 then
    if today ≥ isoWeek1Monday (d.year + 1) then 1 else week + 1
  else week + 1

/-- Sort key of a timestamp: seconds since the proleptic epoch. -/
def toSeconds (dt : DateTime) : Nat :=
  toOrdinal dt.date * 86400 + dt.secs

/-! ### String parsing -/

/-- ASCII lowercasing, the effect of Python's `str.lower()` on the period
selector strings the bot compares against (`'month'`, `'week'`). -/
def lowerStr (s : String) : String :=
  ⟨s.data.map Char.toLower⟩

/-- Split a character list on a separator character (the effect of
`str.split` / `String.splitOn` for a one-character separator). -/
def splitChar (sep : Char) : List Char → List (List Char)
  | [] => [[]]
  | c :: cs =>
    let r := splitChar sep cs
    if c = sep then [] :: r
    else
      match r with
      | [] => [[c]]
      | g :: gs => (c :: g) :: gs

/-- Parse a nonempty all-digit character list as a natural number. -/
def parseNat? (cs : List Char) : Option Nat :=
  if cs ≠ [] ∧ cs.all Char.isDigit then
    some (cs.foldl (fun n c => n * 10 + (c.toNat - 48)) 0)
  else none

/-- Value of a digit list read as the fractional part after a decimal point. -/
def fracVal (cs : List Char) : ℚ :=
  (cs.foldl (fun n c => n * 10 + (c.toNat - 48)) 0 : ℚ) / ((10 : ℚ) ^ cs.length)

/-- Model of `pd.to_numeric(_, errors='coerce')` on a single cell: an optional
sign, integer digits, and an optional fractional part; anything else (or a
missing cell upstream) coerces to NaN, i.e. `none`. -/
def parseDecimal (s : String) : Option ℚ :=
  let cs := s.toList
  let (neg, rest) :=
    match cs with
    | '-' :: r => (true, r)
    | '+' :: r => (false, r)
    | r => (false, r)
  let intPart := rest.takeWhile Char.isDigit
  let afterInt := rest.dropWhile Char.isDigit
  match afterInt with
  | [] =>
    if intPart.isEmpty then none
    else
      let v : ℚ := (intPart.foldl (fun n c => n * 10 + (c.toNat - 48)) 0 : ℚ)
      some (if neg then -v else v)
  | '.' :: fracs =>
    if fracs.all Char.isDigit && (intPart ≠ [] ∨ fracs ≠ []) then
      let v : ℚ := (intPart.foldl (fun n c => n * 10 + (c.toNat - 48)) 0 : ℚ) + fracVal fracs
      some (if neg then -v else v)
    else none
  | _ => none

/-- Parse `"HH:MM:SS"` into seconds of the day. -/
def parseTimeOfDay (cs : List Char) : Option Nat :=
  match (splitChar ':' cs).map parseNat? with
  | [some h, some mi, some se] =>
    if h < 24 && mi < 60 && se < 60 then some (h * 3600 + mi * 60 + se) else none
  | _ => none

/-- Parse a `"YYYY-MM-DD"` calendar date, validating month and day ranges. -/
def parseDateOnly (cs : List Char) : Option Date :=
  match (splitChar '-' cs).map parseNat? with
  | [some y, some m, some d] =>
    if 1 ≤ y && 1 ≤ m && m ≤ 12 && 1 ≤ d && d ≤ daysInMonth y m then
      some ⟨y, m, d⟩
    else none
  | _ => none

/-- Model of `pd.to_datetime(_, errors='coerce')` on a cell: the bot writes
timestamps as `"%Y-%m-%d %H:%M:%S"`, and plain dates also parse; anything the
parser rejects coerces to NaT, i.e. `none` — never to the current time. -/
def parseDateTime (s : String) : Option DateTime :=
  match splitChar ' ' s.data with
  | [d] => (parseDateOnly d).map (fun dd => ⟨dd, 0⟩)
  | [d, t] =>
    match parseDateOnly d, parseTimeOfDay t with
    | some dd, some secs => some ⟨dd, secs⟩
    | _, _ => none
  | _ => none

/-! ### Data model and normalization -/

/-- One raw data row after name-addressing by the header: each of the six
known columns holds either a cell string or NaN (`none`) when the cell is
absent (short row, or column missing from the header). -/
structure RawRow where
  user : Option String
  amount : Option String
  description : Option String
  category : Option String
  type : Option String
  date : Option String
deriving DecidableEq, Repr

/-- One normalized ledger record (a row of the processed DataFrame).
`user` and `description` are untouched by `get_processed_records`, so they may
still be NaN; `amount` went through `to_numeric` + `fillna 0`; `category` and
`type` through `fillna`; `date` through `to_datetime(errors='coerce')`. -/
structure Transaction where
  user : Option String
  amount : ℚ
  description : Option String
  category : String
  type : String
  date : Option DateTime
deriving DecidableEq, Repr

/-- The per-row effect of the coercion pipeline in `get_processed_records`:
`df['Amount'] = to_numeric(df['Amount'], errors='coerce')`, then
`df.fillna({'Amount': 0, 'Category': 'Uncategorized', 'Type': 'Expense'})`,
then `df['Date'] = to_datetime(df['Date'], errors='coerce')`. -/
def normalizeRow (r : RawRow) : Transaction where
  user := r.user
  amount := (r.amount.bind parseDecimal).getD 0
  description := r.description
  category := r.category.getD "Uncategorized"
  type := r.type.getD "Expense"
  date := r.date.bind parseDateTime

/-- Cell of `row` under column `name`, looked up through the header row:
`none` when the column is absent or the row is shorter (pandas pads short rows
with NaN). -/
def lookupCell (headers row : List String) (name : String) : Option String :=
  match headers.indexOf? name with
  | none => none
  | some i => row.get? i

/-- Build one name-addressed row.  `pd.DataFrame(data_rows, columns=headers)`
raises when a data row is wider than the header row; shorter rows are padded
with NaN. -/
def buildRow (headers row : List String) : Option RawRow :=
  if headers.length < row.length then none
  else some
    { user := lookupCell headers row "User"
      amount := lookupCell headers row "Amount"
      description := lookupCell headers row "Description"
      category := lookupCell headers row "Category"
      type := lookupCell headers row "Type"
      date := lookupCell headers row "Date" }

/-- `get_processed_records`: from the sheet snapshot (header row first) to the
normalized record set.  Any exception while constructing or coercing the
DataFrame — a too-wide data row, or the `'Amount'`/`'Date'` columns missing
from the header (a `KeyError` at `df['Amount']` / `df['Date']`) — is caught
and yields the empty record set. -/
def getProcessedRecords (allValues : List (List String)) : List Transaction :=
  match allValues with
  | [] => []
  | headers :: dataRows =>
    match dataRows.mapM (buildRow headers) with
    | none => []
    | some raws =>
      if raws.isEmpty then []
      else if headers.contains "Amount" && headers.contains "Date" then
        raws.map normalizeRow
      else []

/-! ### Filtering -/

/-- `df[df['User'] == str(user)]`: exact, case-sensitive match; a NaN user
never equals a string. -/
def filterUser (user : String) (txs : List Transaction) : List Transaction :=
  txs.filter (fun t => t.user == some user)

/-- `df[df['Date'].dt.strftime('%Y-%m') == current_month]`: same calendar
year and month as the reference instant; NaT rows never match. -/
def monthFilter (now : Date) (txs : List Transaction) : List Transaction :=
  txs.filter (fun t =>
    match t.date with
    | some dt => dt.date.year == now.year && dt.date.month == now.month
    | none => false)

/-- `df[df['Date'].dt.isocalendar().week == current_week]`: the filter
compares ISO week numbers only — the year is not consulted; NaT rows never
match. -/
def weekFilter (now : Date) (txs : List Transaction) : List Transaction :=
  txs.filter (fun t =>
    match t.date with
    | some dt => isoWeekNum dt.date == isoWeekNum now
    | none => false)

/-- The shared period branch of `balance` / `total` / `summary` /
`filter_data_by_period`: lowercase-match on `'month'` / `'week'`, any other
selector leaves the data unfiltered with label `'all time'`. -/
def filterByPeriod (period : String) (now : Date) (txs : List Transaction) :
    List Transaction × String :=
  if lowerStr period = "month" then (monthFilter now txs, "this month")
  else if lowerStr period = "week" then (weekFilter now txs, "this week")
  else (txs, "all time")

/-! ### Aggregation -/

/-- `df['Amount'].sum()` over a record list. -/
def sumAmounts (txs : List Transaction) : ℚ :=
  (txs.map (fun t => t.amount)).sum

/-- `df[df['Type'] == ty]['Amount'].sum()`. -/
def sumByType (ty : String) (txs : List Transaction) : ℚ :=
  sumAmounts (txs.filter (fun t => t.type == ty))

/-- Net balance: income sum minus expense sum. -/
def netBalance (txs : List Transaction) : ℚ :=
  sumByType "Income" txs - sumByType "Expense" txs

/-- Sum of amounts of records in `txs` whose category is `c`. -/
def catSum (txs : List Transaction) (c : String) : ℚ :=
  sumAmounts (txs.filter (fun t => t.category == c))

/-- `groupby('Category')['Amount'].sum()`: one `(category, sum)` pair per
distinct category, with the group keys sorted ascending (pandas `groupby`
defaults to `sort=True`). -/
def groupbySum (txs : List Transaction) : List (String × ℚ) :=
  (((txs.map (fun t => t.category)).dedup).insertionSort (· ≤ ·)).map
    (fun c => (c, catSum txs c))

/-- Descending-by-value ordering used by `.sort_values(ascending=False)`. -/
def sumDescLe (a b : String × ℚ) : Prop := b.2 ≤ a.2

instance : DecidableRel sumDescLe := fun a b => inferInstanceAs (Decidable (b.2 ≤ a.2))

/-- `groupby('Category')['Amount'].sum().sort_values(ascending=False)`
restricted to records of kind `ty` — the category breakdown computed by
`financial_summary` and by the category pie charts. -/
def category_breakdown (ty : String) (txs : List Transaction) : List (String × ℚ) :=
  (groupbySum (txs.filter (fun t => t.type == ty))).insertionSort sumDescLe

/-! ### Time-series builder (`balance_over_time`, lines 806–845) -/

/-- Day key of a timestamp: `df['Date'].dt.date`, as a day ordinal. -/
def dayKey (dt : DateTime) : Nat := toOrdinal dt.date

/-- The records carrying a valid (non-NaT) date. -/
def validDated (txs : List Transaction) : List Transaction :=
  txs.filter (fun t => t.date.isSome)

/-- Per-day per-kind sum: the `groupby('Day')['Amount'].sum()` lookup for day
`d`, defaulting to 0 after the left-merge + `fillna(0)`.  NaT rows belong to
no day group. -/
def sumOnDay (txs : List Transaction) (ty : String) (d : Nat) : ℚ :=
  sumAmounts (txs.filter (fun t => t.type == ty && t.date.map dayKey == some d))

/-- One row of the chart's `date_df`. -/
structure DailyPoint where
  day : Nat
  income : ℚ
  expense : ℚ
  balance : ℚ
  cumulative : ℚ
deriving DecidableEq, Repr

/-- Build `n` consecutive daily points starting at day `d`, threading the
running balance `cum` (`date_df['Balance'].cumsum()`). -/
def buildSeries (txs : List Transaction) : Nat → Nat → ℚ → List DailyPoint
  | _, 0, _ => []
  | d, n + 1, cum =>
    let inc := sumOnDay txs "Income" d
    let exp := sumOnDay txs "Expense" d
    let cum2 := cum + (inc - exp)
    ⟨d, inc, exp, inc - exp, cum2⟩ :: buildSeries txs (d + 1) n cum2

/-- The full gap-free daily series over the inclusive day range `[s, e]`
(`pd.date_range(start, end, freq='D')` merged with the per-day sums,
NaN-filled with 0, with balance and cumulative balance columns). -/
def dailyPoints (txs : List Transaction) (s e : Nat) : List DailyPoint :=
  buildSeries txs s (e + 1 - s) 0

/-- Cumulative balance at the last generated day (0 for an empty range). -/
def lastCum (l : List DailyPoint) : ℚ :=
  match l.getLast? with
  | none => 0
  | some p => p.cumulative

/-! ### History ordering -/

/-- Boolean form of the `sort_values('Date', ascending=False)` order:
later timestamps first, NaT rows last (`na_position='last'`). -/
def dateDescLeB (a b : Transaction) : Bool :=
  match a.date, b.date with
  | some x, some y => toSeconds y ≤ toSeconds x
  | some _, none => true
  | none, some _ => false
  | none, none => true

/-- Propositional form of the descending-date order. -/
def dateDescLe (a b : Transaction) : Prop := dateDescLeB a b = true

instance : DecidableRel dateDescLe := fun a b =>
  inferInstanceAs (Decidable (dateDescLeB a b = true))

/-- `df.sort_values('Date', ascending=False)`. -/
def sortDescByDate (txs : List Transaction) : List Transaction :=
  txs.insertionSort dateDescLe

/-! ### Reporting operations -/

/-- Outcome of a reporting command: either an explicit no-data message or the
data the command renders. -/
inductive Report where
  | noData (msg : String)
  | balanceR (income expenses net : ℚ) (ptext : String)
  | totalR (total : ℚ) (ptext : String)
  | summaryR (incomeByCat expenseByCat : List (String × ℚ))
      (totalIncome totalExpense net : ℚ) (ptext : String)
  | historyR (entries : List Transaction)
  | chartR (df : List Transaction) (ptext : String)
deriving DecidableEq, Repr

/-- The `/balance` command (lines 330–387): empty-snapshot check, user
filter + empty check, period filter, then the income/expense/net report —
with no empty check after the period filter. -/
def balanceOp (allTx : List Transaction) (user period : String) (now : Date) : Report :=
  if allTx.isEmpty then .noData "No transactions found."
  else
    let dfU := filterUser user allTx
    if dfU.isEmpty then .noData "You have no recorded transactions."
    else
      let pr := filterByPeriod period now dfU
      let income := sumByType "Income" pr.1
      let expenses := sumByType "Expense" pr.1
      .balanceR income expenses (income - expenses) pr.2

/-- The type word used in `total` / `history` messages. -/
def typeText (ty : String) : String :=
  if ty = "Expense" then "expenses"
  else if ty = "Income" then "income"
  else "transactions"

/-- The `/total` command (lines 404–457): like `balance`, plus a kind filter,
and an explicit no-data check after all filtering. -/
def totalOp (allTx : List Transaction) (user period ty : String) (now : Date) : Report :=
  if allTx.isEmpty then .noData "No transactions found."
  else
    let dfU := filterUser user allTx
    if dfU.isEmpty then .noData "You have no recorded transactions."
    else
      let pr := filterByPeriod period now dfU
      let df := if ty ≠ "All" then pr.1.filter (fun t => t.type == ty) else pr.1
      if df.isEmpty then .noData ("No " ++ typeText ty ++ " found for " ++ pr.2 ++ ".")
      else .totalR (sumAmounts df) pr.2

/-- The `/summary` command (lines 474–562): full two-kind category breakdown
plus net balance, independent of the `type` parameter, with an explicit
no-data check after the period filter. -/
def summaryOp (allTx : List Transaction) (user period : String) (now : Date) : Report :=
  if allTx.isEmpty then .noData "No transactions found."
  else
    let dfU := filterUser user allTx
    if dfU.isEmpty then .noData "You have no recorded transactions."
    else
      let pr := filterByPeriod period now dfU
      if pr.1.isEmpty then .noData ("No transactions found for " ++ pr.2 ++ ".")
      else
        let ti := sumByType "Income" pr.1
        let te := sumByType "Expense" pr.1
        .summaryR (category_breakdown "Income" pr.1) (category_breakdown "Expense" pr.1)
          ti te (ti - te) pr.2

/-- The user-and-kind filter of `/history` (no period filter exists there). -/
def histFilter (allTx : List Transaction) (user ty : String) : List Transaction :=
  let dfU := filterUser user allTx
  if ty ≠ "All" then dfU.filter (fun t => t.type == ty) else dfU

/-- The `/history` command (lines 574–629):
`df.sort_values('Date', ascending=False).head(limit)`. -/
def historyOp (allTx : List Transaction) (user ty : String) (limit : Nat) : Report :=
  if allTx.isEmpty then .noData "No transactions found."
  else if (filterUser user allTx).isEmpty then .noData "You have no recorded transactions."
  else if (histFilter allTx user ty).isEmpty then .noData ("No " ++ typeText ty ++ " found.")
  else .historyR ((sortDescByDate (histFilter allTx user ty)).take limit)

/-- `filter_data_by_period` (lines 921–944). -/
def filter_data_by_period (df : List Transaction) (user period : String) (now : Date) :
    List Transaction × String :=
  if df.isEmpty then ([], "No data")
  else
    let dfU := filterUser user df
    if dfU.isEmpty then ([], "No user data")
    else filterByPeriod period now dfU

/-- The `/chart` command's data path (lines 962–995): filter by user and
period, send an explicit no-data message when the filtered set is empty,
otherwise hand the filtered data to the renderer. -/
def chartOp (allTx : List Transaction) (user period : String) (now : Date) : Report :=
  let pr := filter_data_by_period allTx user period now
  if pr.1.isEmpty then .noData ("No data available for " ++ pr.2 ++ ".")
  else .chartR pr.1 pr.2

/-! ### Auxiliary definitions for the specification statements -/

/-- Descending-by-sum with alphabetical tie-break: the order the category
breakdown actually satisfies. -/
def sumThenCat (a b : String × ℚ) : Prop :=
  b.2 < a.2 ∨ (a.2 = b.2 ∧ a.1 ≤ b.1)

/-- An optional day key falls in the half-open day window `[d, d + n)`. -/
def inWin (o : Option Nat) (d n : Nat) : Prop :=
  match o with
  | some k => d ≤ k ∧ k < d + n
  | none => False

instance : ∀ (o : Option Nat) (d n : Nat), Decidable (inWin o d n)
  | some k, d, n => inferInstanceAs (Decidable (d ≤ k ∧ k < d + n))
  | none, _, _ => inferInstanceAs (Decidable False)

/-- Sum of the per-day sums of kind `ty` over the `n` days starting at `d`. -/
def rangeSum (txs : List Transaction) (ty : String) : Nat → Nat → ℚ
  | _, 0 => 0
  | d, n + 1 => sumOnDay txs ty d + rangeSum txs ty (d + 1) n

/-- Sum of the per-day balances over the `n` days starting at `d`. -/
def rangeBal (txs : List Transaction) (d n : Nat) : ℚ :=
  rangeSum txs "Income" d n - rangeSum txs "Expense" d n

instance : IsTotal Transaction dateDescLe := by
  constructor
  intro a b
  unfold dateDescLe dateDescLeB
  rcases a.date with _ | x <;> rcases b.date with _ | y <;> simp
  omega

instance : IsTrans Transaction dateDescLe := by
  constructor
  intro a b c hab hbc
  unfold dateDescLe dateDescLeB at hab hbc ⊢
  rcases ha : a.date with _ | x <;> rcases hb : b.date with _ | y <;>
    rcases hc : c.date with _ | z <;> simp_all
  omega

/-! ### Concrete example data -/

/-- The sheet's header row (`HEADERS` in the source). -/
def sheetHeader : List String :=
  ["User", "Amount", "Description", "Category", "Type", "Date"]

/-- Snapshot holding one income of 100 recorded on 2023-03-15. -/
def c1Values : List (List String) :=
  [sheetHeader, ["alice", "100", "pay", "Salary", "Income", "2023-03-15 12:00:00"]]

/-- Reference instant Wednesday 2024-03-13. -/
def c1Now : Date := ⟨2024, 3, 13⟩

/-- Snapshot holding one income of 100 recorded on 2024-01-10. -/
def c2Values : List (List String) :=
  [sheetHeader, ["alice", "100", "pay", "Salary", "Income", "2024-01-10 09:30:00"]]

/-- Reference instant 2024-03-15: `c2Values`' only record is outside this
month. -/
def c2Now : Date := ⟨2024, 3, 15⟩

/-- A raw row whose description cell is the empty string. -/
def c3Row : RawRow :=
  ⟨some "alice", some "10", some "", some "Food", some "Expense", some "2024-03-01 00:00:00"⟩

/-- A raw row with unparseable amount and date and missing description,
category and type cells. -/
def c3DefaultsRow : RawRow :=
  ⟨some "alice", some "abc", none, none, none, some "not a date"⟩

/-- A raw row whose amount cell parses to a negative number. -/
def c4Row : RawRow :=
  ⟨some "alice", some "-5", some "snack", some "Food", some "Expense", none⟩

/-- A raw row whose amount cell parses to a positive number. -/
def c4PlusRow : RawRow :=
  ⟨some "alice", some "7", some "snack", some "Food", some "Expense", none⟩

/-- Two expense records with equal amounts; category `"B"` is seen first. -/
def c5Txs : List Transaction :=
  [⟨some "alice", 5, some "x", "B", "Expense", none⟩,
   ⟨some "alice", 5, some "y", "A", "Expense", none⟩]

/-- Ledger for the time-series and history examples: two dated records and
one with the unknown-date sentinel. -/
def exTxs : List Transaction :=
  [⟨some "alice", 100, some "pay", "Salary", "Income", some ⟨⟨2024, 3, 1⟩, 0⟩⟩,
   ⟨some "alice", 10, some "lunch", "Food", "Expense", some ⟨⟨2024, 3, 3⟩, 600⟩⟩,
   ⟨some "alice", 7, some "misc", "Other", "Expense", none⟩]

/-- A data row with seven cells under the six-column header: DataFrame
construction raises on it. -/
def c9Rows : List (List String) :=
  [["alice", "10", "x", "Food", "Expense", "2024-03-01", "extra"]]

/-! ## Claim theorems -/

/-- C10: any period selector whose lowercase form is neither `'month'` nor
`'week'` — not only `'all'` — leaves the data unfiltered and labels the
result `'all time'`, and the selector match is case-insensitive: any string
lowercasing to `'month'` selects the month filter. -/
theorem c10_unknown_period_all_time (p q : String) (now : Date) (txs : List Transaction)
    (h1 : lowerStr p ≠ "month") (h2 : lowerStr p ≠ "week") (h3 : lowerStr q = "month") :
    filterByPeriod p now txs = (txs, "all time") ∧
    filterByPeriod q now txs = (monthFilter now txs, "this month") := by
  constructor
  · unfold filterByPeriod
    rw [if_neg h1, if_neg h2]
  · unfold filterByPeriod
    rw [if_pos h3]

/-- Witness for C10 at the misspelled selector `"Fortnight"` and the
upper-case selector `"MONTH"`. -/
theorem c10_unknown_period_all_time_witness :
    filterByPeriod "Fortnight" ⟨2024, 1, 1⟩ [] = ([], "all time") ∧
    filterByPeriod "MONTH" ⟨2024, 1, 1⟩ [] = (monthFilter ⟨2024, 1, 1⟩ [], "this month") :=
  c10_unknown_period_all_time "Fortnight" "MONTH" ⟨2024, 1, 1⟩ []
    (by decide) (by decide) (by decide)

/-- C9: whenever building the typed record set from the snapshot raises —
a data row wider than the header row, or the `'Amount'`/`'Date'` column
absent from the header — `get_processed_records` returns the empty ledger,
and every reporting operation then reports its no-transactions outcome. -/
theorem c9_build_error_empty_ledger (headers : List String) (dataRows : List (List String))
    (h : dataRows.mapM (buildRow headers) = none ∨
      (headers.contains "Amount" && headers.contains "Date") = false) :
    getProcessedRecords (headers :: dataRows) = [] ∧
    (∀ u p now, balanceOp (getProcessedRecords (headers :: dataRows)) u p now =
      .noData "No transactions found.") ∧
    (∀ u p ty now, totalOp (getProcessedRecords (headers :: dataRows)) u p ty now =
      .noData "No transactions found.") ∧
    (∀ u p now, summaryOp (getProcessedRecords (headers :: dataRows)) u p now =
      .noData "No transactions found.") ∧
    (∀ u ty lim, historyOp (getProcessedRecords (headers :: dataRows)) u ty lim =
      .noData "No transactions found.") ∧
    (∀ u p now, chartOp (getProcessedRecords (headers :: dataRows)) u p now =
      .noData ("No data available for " ++ "No data" ++ ".")) := by
  have step : getProcessedRecords (headers :: dataRows) =
      (match dataRows.mapM (buildRow headers) with
        | none => []
        | some raws =>
          if raws.isEmpty then []
          else if headers.contains "Amount" && headers.contains "Date" then
            raws.map normalizeRow
          else []) := rfl
  have hempty : getProcessedRecords (headers :: dataRows) = [] := by
    rw [step]
    rcases h with h | h
    · rw [h]
    · cases hm : dataRows.mapM (buildRow headers) with
      | none => rfl
      | some raws =>
        cases he : raws.isEmpty with
        | true => simp [he]
        | false =>
          show (if raws.isEmpty = true then []
            else if (headers.contains "Amount" && headers.contains "Date") = true then
              raws.map normalizeRow
            else []) = []
          rw [he, h]
          simp
  rw [hempty]
  refine ⟨rfl, ?_, ?_, ?_, ?_, ?_⟩
  · intro u p now; rfl
  · intro u p ty now; rfl
  · intro u p now; rfl
  · intro u ty lim; rfl
  · intro u p now; rfl

/-- Witness for C9: a seven-cell data row under the six-column header. -/
theorem c9_build_error_empty_ledger_witness :
    getProcessedRecords (sheetHeader :: c9Rows) = [] ∧
    balanceOp (getProcessedRecords (sheetHeader :: c9Rows)) "alice" "all" ⟨2024, 1, 1⟩ =
      .noData "No transactions found." :=
  ⟨(c9_build_error_empty_ledger sheetHeader c9Rows (Or.inl (by decide))).1,
   (c9_build_error_empty_ledger sheetHeader c9Rows (Or.inl (by decide))).2.1
     "alice" "all" ⟨2024, 1, 1⟩⟩

/-- C1 (code bug): the `week` filter compares only ISO week numbers, never
the year.  With reference Wednesday 2024-03-13 (ISO week 11, whose Monday is
2024-03-11), a transaction dated 2023-03-15 — ISO week 11 of 2023, strictly
before that Monday — is included in the `balance` report for `'this week'`,
although it lies outside the ISO week containing the reference instant. -/
theorem c1_week_filter_crosses_years :
    balanceOp (getProcessedRecords c1Values) "alice" "week" c1Now =
      .balanceR 100 0 100 "this week" ∧
    weekdayIdx c1Now = 2 ∧
    toOrdinal c1Now - weekdayIdx c1Now = toOrdinal ⟨2024, 3, 11⟩ ∧
    (getProcessedRecords c1Values).map (fun t => t.date.map dayKey) =
      [some (toOrdinal ⟨2023, 3, 15⟩)] ∧
    toOrdinal ⟨2023, 3, 15⟩ < toOrdinal ⟨2024, 3, 11⟩ := by
  refine ⟨by with_unfolding_all rfl, by decide, by decide, by with_unfolding_all rfl, by decide⟩

/-- C2 counterexample: `c2Values`' only transaction belongs to `alice` but
falls outside March 2024, so the period-filtered set is empty — yet
`balance` reports the zero-valued aggregate, not a no-data outcome. -/
theorem c2_balance_zero_report_counterexample :
    (filterByPeriod "month" c2Now (filterUser "alice" (getProcessedRecords c2Values))).1 = [] ∧
    balanceOp (getProcessedRecords c2Values) "alice" "month" c2Now =
      .balanceR 0 0 0 "this month" := by
  refine ⟨by with_unfolding_all rfl, by with_unfolding_all rfl⟩

/-- C2 (amended): when the user-filtered set is nonempty but the period
filter empties it, `total`, `summary` and `chart` signal their explicit
no-data outcomes — but `balance` does not: it reports income 0, expenses 0,
net 0. -/
theorem c2_period_empty_behavior (allTx : List Transaction) (u p ty : String) (now : Date)
    (h1 : allTx ≠ []) (h2 : filterUser u allTx ≠ [])
    (h3 : (filterByPeriod p now (filterUser u allTx)).1 = []) :
    balanceOp allTx u p now =
      .balanceR 0 0 0 (filterByPeriod p now (filterUser u allTx)).2 ∧
    totalOp allTx u p ty now =
      .noData ("No " ++ typeText ty ++ " found for " ++
        (filterByPeriod p now (filterUser u allTx)).2 ++ ".") ∧
    summaryOp allTx u p now =
      .noData ("No transactions found for " ++
        (filterByPeriod p now (filterUser u allTx)).2 ++ ".") ∧
    chartOp allTx u p now =
      .noData ("No data available for " ++
        (filterByPeriod p now (filterUser u allTx)).2 ++ ".") := by
  have e1 : allTx.isEmpty = false := by
    cases allTx with
    | nil => exact absurd rfl h1
    | cons a l => rfl
  have e2 : (filterUser u allTx).isEmpty = false := by
    cases hu : filterUser u allTx with
    | nil => exact absurd hu h2
    | cons a l => rfl
  rcases hpr : filterByPeriod p now (filterUser u allTx) with ⟨dfp, ptext⟩
  rw [hpr] at h3
  simp only at h3
  subst h3
  refine ⟨?_, ?_, ?_, ?_⟩
  · simp only [balanceOp, e1, e2, Bool.false_eq_true, if_false, hpr]
    with_unfolding_all rfl
  · simp only [totalOp, e1, e2, Bool.false_eq_true, if_false, hpr]
    by_cases hty : ty = "All" <;> simp [hty]
  · simp only [summaryOp, e1, e2, Bool.false_eq_true, if_false, hpr]
    rfl
  · simp only [chartOp, filter_data_by_period, e1, e2, Bool.false_eq_true, if_false, hpr]
    rfl

/-- Witness for C2's amended statement on the `c2Values` snapshot. -/
theorem c2_period_empty_behavior_witness :
    totalOp (getProcessedRecords c2Values) "alice" "month" "Expense" c2Now =
      .noData ("No " ++ typeText "Expense" ++ " found for " ++
        (filterByPeriod "month" c2Now
          (filterUser "alice" (getProcessedRecords c2Values))).2 ++ ".") :=
  (c2_period_empty_behavior (getProcessedRecords c2Values) "alice" "month" "Expense" c2Now
    (by with_unfolding_all decide) (by with_unfolding_all decide)
    (by with_unfolding_all rfl)).2.1

/-- Unparseable or missing amount cells normalize to 0. -/
theorem normalizeRow_amount_unparseable {r : RawRow}
    (h : r.amount.bind parseDecimal = none) : (normalizeRow r).amount = 0 := by
  show (r.amount.bind parseDecimal).getD 0 = 0
  rw [h]
  rfl

/-- Missing category cells normalize to `"Uncategorized"`. -/
theorem normalizeRow_category_missing {r : RawRow}
    (h : r.category = none) : (normalizeRow r).category = "Uncategorized" := by
  show (r.category.getD "Uncategorized") = "Uncategorized"
  rw [h]
  rfl

/-- Missing type cells normalize to `"Expense"`. -/
theorem normalizeRow_type_missing {r : RawRow}
    (h : r.type = none) : (normalizeRow r).type = "Expense" := by
  show (r.type.getD "Expense") = "Expense"
  rw [h]
  rfl

/-- Unparseable or missing date cells normalize to the unknown-date
sentinel. -/
theorem normalizeRow_date_unparseable {r : RawRow}
    (h : r.date.bind parseDateTime = none) : (normalizeRow r).date = none := by
  show r.date.bind parseDateTime = none
  exact h

/-- C3 counterexample: a row whose description cell is the empty string keeps
that empty description after normalization — it does not become `"N/A"`
(`get_processed_records` never touches the `Description` column; the `"N/A"`
placeholder is applied by the entry commands at recording time). -/
theorem c3_description_not_defaulted_counterexample :
    (normalizeRow c3Row).description = some "" ∧
    ¬ (normalizeRow c3Row).description = some "N/A" := by
  refine ⟨rfl, by decide⟩

/-- C3 (amended): normalization is total and preserves cardinality and order,
and populates the defaulted fields — unparseable amount becomes 0, missing
category `"Uncategorized"`, missing kind `"Expense"`, unparseable date the
unknown-date sentinel — but the description (and user) fields pass through
unchanged: an empty or missing description stays as it is, never `"N/A"`. -/
theorem c3_normalization_amended (rows : List RawRow) :
    (rows.map normalizeRow).length = rows.length ∧
    ∀ i (h : i < rows.length),
      (rows.map normalizeRow).get ⟨i, by simpa using h⟩ = normalizeRow (rows.get ⟨i, h⟩) ∧
      ((rows.get ⟨i, h⟩).amount.bind parseDecimal = none →
        (normalizeRow (rows.get ⟨i, h⟩)).amount = 0) ∧
      ((rows.get ⟨i, h⟩).category = none →
        (normalizeRow (rows.get ⟨i, h⟩)).category = "Uncategorized") ∧
      ((rows.get ⟨i, h⟩).type = none →
        (normalizeRow (rows.get ⟨i, h⟩)).type = "Expense") ∧
      ((rows.get ⟨i, h⟩).date.bind parseDateTime = none →
        (normalizeRow (rows.get ⟨i, h⟩)).date = none) ∧
      (normalizeRow (rows.get ⟨i, h⟩)).description = (rows.get ⟨i, h⟩).description ∧
      (normalizeRow (rows.get ⟨i, h⟩)).user = (rows.get ⟨i, h⟩).user := by
  refine ⟨by simp, ?_⟩
  intro i h
  exact ⟨by simp, fun ha => normalizeRow_amount_unparseable ha,
    fun hc => normalizeRow_category_missing hc,
    fun ht => normalizeRow_type_missing ht,
    fun hd => normalizeRow_date_unparseable hd, rfl, rfl⟩

/-- Witness for C3's amended statement on a row with unparseable amount and
date and missing description, category and kind. -/
theorem c3_normalization_amended_witness :
    (normalizeRow ([c3DefaultsRow].get ⟨0, by decide⟩)).amount = 0 ∧
    (normalizeRow ([c3DefaultsRow].get ⟨0, by decide⟩)).category = "Uncategorized" ∧
    (normalizeRow ([c3DefaultsRow].get ⟨0, by decide⟩)).type = "Expense" ∧
    (normalizeRow ([c3DefaultsRow].get ⟨0, by decide⟩)).date = none ∧
    (normalizeRow ([c3DefaultsRow].get ⟨0, by decide⟩)).description =
      ([c3DefaultsRow].get ⟨0, by decide⟩).description := by
  have h := (c3_normalization_amended [c3DefaultsRow]).2 0 (by decide)
  exact ⟨h.2.1 (by with_unfolding_all rfl), h.2.2.1 (by decide), h.2.2.2.1 (by decide),
    h.2.2.2.2.1 (by decide), h.2.2.2.2.2.1⟩

/-- C4 counterexample: a raw amount cell `"-5"` parses to −5 and is kept
— the normalized amount is negative, so `amount ≥ 0` fails. -/
theorem c4_negative_amount_counterexample :
    (normalizeRow c4Row).amount = -5 ∧ ¬ 0 ≤ (normalizeRow c4Row).amount := by
  have e : (normalizeRow c4Row).amount = -5 := by with_unfolding_all rfl
  refine ⟨e, ?_⟩
  rw [e]
  norm_num

/-- C4 (amended): the normalized amount is simply the parsed raw value, 0
when unparseable; it is non-negative exactly when any parsed value is —
normalization does not clamp or reject negative parsed amounts. -/
theorem c4_amount_nonneg_amended (r : RawRow)
    (h : ∀ q : ℚ, r.amount.bind parseDecimal = some q → 0 ≤ q) :
    (normalizeRow r).amount = (r.amount.bind parseDecimal).getD 0 ∧
    0 ≤ (normalizeRow r).amount := by
  refine ⟨rfl, ?_⟩
  cases hq : r.amount.bind parseDecimal with
  | none => simp [normalizeRow, hq]
  | some q => simpa [normalizeRow, hq] using h q hq

/-- Witness for C4's amended statement on a row whose amount parses to 7. -/
theorem c4_amount_nonneg_amended_witness : 0 ≤ (normalizeRow c4PlusRow).amount :=
  (c4_amount_nonneg_amended c4PlusRow (by
    intro q hq
    rw [show c4PlusRow.amount.bind parseDecimal = some 7 from by with_unfolding_all rfl] at hq
    cases hq
    norm_num)).2

/-- Inserting a pair whose category is strictly below every category in a
`sumThenCat`-sorted list (by the descending-sum order) keeps it sorted. -/
theorem orderedInsert_sorted_sumThenCat (x : String × ℚ) :
    ∀ l : List (String × ℚ), List.Sorted sumThenCat l → (∀ c ∈ l, x.1 < c.1) →
      List.Sorted sumThenCat (l.orderedInsert sumDescLe x)
  | [], _, _ => List.sorted_singleton x
  | b :: t, hl, hx => by
    rw [List.orderedInsert]
    split_ifs with hxb
    · rw [List.sorted_cons]
      refine ⟨?_, hl⟩
      intro y hy
      rcases List.mem_cons.mp hy with rfl | hyt
      · rcases lt_or_eq_of_le hxb with hlt | heq
        · exact Or.inl hlt
        · exact Or.inr ⟨heq.symm, (hx _ (List.mem_cons_self _ _)).le⟩
      · have hby := (List.sorted_cons.mp hl).1 y hyt
        have hyb : y.2 ≤ b.2 := by
          rcases hby with hlt | heq
          · exact hlt.le
          · exact heq.1.symm.le
        rcases lt_or_eq_of_le (le_trans hyb hxb) with hlt | heq
        · exact Or.inl hlt
        · exact Or.inr ⟨heq.symm, (hx y (List.mem_cons_of_mem _ hyt)).le⟩
    · have hxlt : x.2 < b.2 := not_le.mp hxb
      rw [List.sorted_cons]
      refine ⟨?_, orderedInsert_sorted_sumThenCat x t (List.sorted_cons.mp hl).2
        (fun c hc => hx c (List.mem_cons_of_mem _ hc))⟩
      intro y hy
      rcases (List.mem_orderedInsert _).mp hy with rfl | hyt
      · exact Or.inl hxlt
      · exact (List.sorted_cons.mp hl).1 y hyt

/-- A stable descending-by-sum insertion sort of a list whose categories are
strictly ascending leaves ties in ascending category order. -/
theorem insertionSort_sorted_sumThenCat :
    ∀ l : List (String × ℚ), List.Pairwise (fun a b => a.1 < b.1) l →
      List.Sorted sumThenCat (l.insertionSort sumDescLe)
  | [], _ => List.sorted_nil
  | x :: t, hp => by
    rw [List.insertionSort]
    refine orderedInsert_sorted_sumThenCat x _
      (insertionSort_sorted_sumThenCat t (List.pairwise_cons.mp hp).2) ?_
    intro c hc
    exact (List.pairwise_cons.mp hp).1 c
      ((List.perm_insertionSort sumDescLe t).mem_iff.mp hc)

/-- The groupby output has strictly ascending category keys (the keys are
deduplicated and sorted, matching pandas `groupby(sort=True)`). -/
theorem groupbySum_keys_pairwise (txs : List Transaction) :
    List.Pairwise (fun a b : String × ℚ => a.1 < b.1) (groupbySum txs) := by
  unfold groupbySum
  rw [List.pairwise_map]
  have hsorted : List.Sorted (fun a b : String => a ≤ b)
      (((txs.map (fun t => t.category)).dedup).insertionSort (· ≤ ·)) :=
    List.sorted_insertionSort _ _
  have hnodup : (((txs.map (fun t => t.category)).dedup).insertionSort (· ≤ ·)).Nodup :=
    ((List.perm_insertionSort _ _).nodup_iff).mpr (List.nodup_dedup _)
  exact (List.Pairwise.and hsorted hnodup).imp (fun h => lt_of_le_of_ne h.1 h.2)

/-- C5 counterexample: two equal-sum expense categories, `"B"` seen first —
the breakdown lists `"A"` first (alphabetical, from the sorted groupby keys),
not the first-seen order `"B", "A"` the claim requires. -/
theorem c5_tiebreak_counterexample :
    category_breakdown "Expense" c5Txs = [("A", 5), ("B", 5)] ∧
    category_breakdown "Expense" c5Txs ≠ [("B", 5), ("A", 5)] ∧
    c5Txs.map (fun t => t.category) = ["B", "A"] := by
  have e : category_breakdown "Expense" c5Txs = [("A", 5), ("B", 5)] := by
    with_unfolding_all rfl
  refine ⟨e, ?_, rfl⟩
  rw [e]
  intro hcontra
  have : ("A", (5 : ℚ)) = ("B", (5 : ℚ)) := by injection hcontra
  have : "A" = "B" := congrArg Prod.fst this
  exact absurd this (by decide)

/-- C5 (amended): the category breakdown is a permutation of the per-category
sums of the kind-filtered records, sorted by sum descending with equal sums
in ascending (alphabetical) category order — the stable value sort runs on
the alphabetically keyed groupby output, so ties are alphabetical, not
first-seen. -/
theorem c5_breakdown_sorted_amended (ty : String) (txs : List Transaction) :
    List.Sorted sumThenCat (category_breakdown ty txs) ∧
    (category_breakdown ty txs).Perm
      (groupbySum (txs.filter (fun t => t.type == ty))) :=
  ⟨insertionSort_sorted_sumThenCat _ (groupbySum_keys_pairwise _),
   List.perm_insertionSort _ _⟩

/-- The daily series over an `n`-day range has exactly `n` points. -/
theorem buildSeries_length (txs : List Transaction) :
    ∀ (n d : Nat) (c : ℚ), (buildSeries txs d n c).length = n
  | 0, _, _ => rfl
  | n + 1, d, c => by simp [buildSeries, buildSeries_length txs n]

/-- The `i`-th point of the daily series is day `d + i`, carrying that day's
income and expense sums. -/
theorem buildSeries_get_fields (txs : List Transaction) :
    ∀ (n d : Nat) (c : ℚ) (i : Nat) (h : i < (buildSeries txs d n c).length),
      ((buildSeries txs d n c).get ⟨i, h⟩).day = d + i ∧
      ((buildSeries txs d n c).get ⟨i, h⟩).income = sumOnDay txs "Income" (d + i) ∧
      ((buildSeries txs d n c).get ⟨i, h⟩).expense = sumOnDay txs "Expense" (d + i)
  | 0, d, c, i, h => by simp [buildSeries] at h
  | n + 1, d, c, 0, h => ⟨rfl, rfl, rfl⟩
  | n + 1, d, c, i + 1, h => by
    have h' : i < (buildSeries txs (d + 1) n
        (c + (sumOnDay txs "Income" d - sumOnDay txs "Expense" d))).length := by
      rw [buildSeries_length]
      rw [buildSeries_length] at h
      omega
    have e : (buildSeries txs d (n + 1) c).get ⟨i + 1, h⟩ =
        (buildSeries txs (d + 1) n
          (c + (sumOnDay txs "Income" d - sumOnDay txs "Expense" d))).get ⟨i, h'⟩ := rfl
    have ih := buildSeries_get_fields txs n (d + 1)
      (c + (sumOnDay txs "Income" d - sumOnDay txs "Expense" d)) i h'
    rw [e]
    have hadd : d + 1 + i = d + (i + 1) := by omega
    rw [hadd] at ih
    exact ih

/-- C6: for a concrete inclusive day range `[s, e]` of `D = e − s + 1` days,
the time-series builder yields exactly `D` daily points, the `i`-th for day
`s + i` — hence strictly ascending, no duplicate and no missing day — each
carrying that day's income and expense sums, and a day on which no
transaction falls carries income 0 and expense 0. -/
theorem c6_series_complete (txs : List Transaction) (s e : Nat) (hse : s ≤ e) :
    (dailyPoints txs s e).length = e - s + 1 ∧
    (∀ i (h : i < (dailyPoints txs s e).length),
      ((dailyPoints txs s e).get ⟨i, h⟩).day = s + i ∧
      ((dailyPoints txs s e).get ⟨i, h⟩).income = sumOnDay txs "Income" (s + i) ∧
      ((dailyPoints txs s e).get ⟨i, h⟩).expense = sumOnDay txs "Expense" (s + i)) ∧
    List.Pairwise (fun p q : DailyPoint => p.day < q.day) (dailyPoints txs s e) ∧
    (∀ d, (∀ t ∈ txs, t.date.map dayKey ≠ some d) →
      sumOnDay txs "Income" d = 0 ∧ sumOnDay txs "Expense" d = 0) := by
  have hget := fun i h => buildSeries_get_fields txs (e + 1 - s) s 0 i h
  refine ⟨?_, hget, ?_, ?_⟩
  · unfold dailyPoints
    rw [buildSeries_length]
    omega
  · rw [List.pairwise_iff_get]
    intro i j hij
    have h1 : ((dailyPoints txs s e).get i).day = s + ↑i :=
      (buildSeries_get_fields txs (e + 1 - s) s 0 i i.isLt).1
    have h2 : ((dailyPoints txs s e).get j).day = s + ↑j :=
      (buildSeries_get_fields txs (e + 1 - s) s 0 j j.isLt).1
    rw [h1, h2]
    omega
  · intro d hd
    have hz : ∀ ty, sumOnDay txs ty d = 0 := by
      intro ty
      unfold sumOnDay sumAmounts
      rw [List.filter_eq_nil_iff.mpr]
      · rfl
      · intro t ht
        simp only [Bool.and_eq_true, beq_iff_eq, not_and]
        intro _ hcontra
        exact hd t ht hcontra
    exact ⟨hz _, hz _⟩

/-- Witness for C6 on a five-day range. -/
theorem c6_series_complete_witness : (dailyPoints exTxs 5 9).length = 9 - 5 + 1 :=
  (c6_series_complete exTxs 5 9 (by decide)).1

/-- The range sum over the empty record list vanishes. -/
theorem rangeSum_nil (ty : String) : ∀ (n d : Nat), rangeSum [] ty d n = 0
  | 0, _ => rfl
  | n + 1, d => by
    simp [rangeSum, rangeSum_nil ty n, sumOnDay, sumAmounts]

/-- Splitting the per-day sum at the head record. -/
theorem sumOnDay_cons (ty : String) (t : Transaction) (txs : List Transaction) (d : Nat) :
    sumOnDay (t :: txs) ty d =
      (if t.type = ty ∧ t.date.map dayKey = some d then t.amount else 0) +
        sumOnDay txs ty d := by
  by_cases h1 : t.type = ty <;> by_cases h2 : t.date.map dayKey = some d <;>
    simp [sumOnDay, sumAmounts, List.filter_cons, h1, h2]

/-- Splitting the range sum at the head record: the head contributes its
amount exactly when its kind matches and its day falls in the window. -/
theorem rangeSum_cons (ty : String) (t : Transaction) (txs : List Transaction) :
    ∀ (n d : Nat),
      rangeSum (t :: txs) ty d n =
        (if t.type = ty ∧ inWin (t.date.map dayKey) d n then t.amount else 0) +
          rangeSum txs ty d n
  | 0, d => by
    have hno : ¬ (t.type = ty ∧ inWin (t.date.map dayKey) d 0) := by
      rintro ⟨-, hw⟩
      cases ho : t.date.map dayKey with
      | none => rw [ho] at hw; exact hw
      | some k =>
        rw [ho] at hw
        have : d ≤ k ∧ k < d + 0 := hw
        omega
    simp [rangeSum, hno]
  | n + 1, d => by
    have key : (if t.type = ty ∧ t.date.map dayKey = some d then t.amount else 0) +
        (if t.type = ty ∧ inWin (t.date.map dayKey) (d + 1) n then t.amount else 0) =
        (if t.type = ty ∧ inWin (t.date.map dayKey) d (n + 1) then t.amount else 0) := by
      by_cases h1 : t.type = ty
      · cases ho : t.date.map dayKey with
        | none => simp [inWin, ho]
        | some k =>
          simp only [inWin, h1, eq_self_iff_true, true_and, Option.some.injEq]
          split_ifs <;> first | (exfalso; omega) | ring
      · simp [h1]
    simp only [rangeSum]
    rw [sumOnDay_cons, rangeSum_cons ty t txs n (d + 1), ← key]
    ring

/-- Splitting the kind sum at the head record. -/
theorem sumByType_cons (ty : String) (t : Transaction) (l : List Transaction) :
    sumByType ty (t :: l) = (if t.type = ty then t.amount else 0) + sumByType ty l := by
  by_cases h : t.type = ty <;> simp [sumByType, sumAmounts, List.filter_cons, h]

/-- When every dated record's day falls inside the window, the range sum
equals the kind sum over the date-valid records. -/
theorem rangeSum_covers (ty : String) :
    ∀ (txs : List Transaction) (s n : Nat),
      (∀ t ∈ txs, inWin (t.date.map dayKey) s n ∨ t.date = none) →
      rangeSum txs ty s n = sumByType ty (validDated txs)
  | [], s, n, _ => by
    rw [rangeSum_nil]
    rfl
  | t :: txs, s, n, hcov => by
    have ht := hcov t (List.mem_cons_self t txs)
    have htail : ∀ x ∈ txs, inWin (x.date.map dayKey) s n ∨ x.date = none :=
      fun x hx => hcov x (List.mem_cons_of_mem t hx)
    rw [rangeSum_cons, rangeSum_covers ty txs s n htail]
    rcases ht with hw | hnone
    · have hsome : t.date.isSome = true := by
        cases hd : t.date with
        | none => rw [hd] at hw; simp only [Option.map_none'] at hw; exact absurd hw id
        | some _ => rfl
      have hval : validDated (t :: txs) = t :: validDated txs := by
        simp [validDated, List.filter_cons, hsome]
      rw [hval, sumByType_cons]
      by_cases h1 : t.type = ty
      · rw [if_pos ⟨h1, hw⟩, if_pos h1]
      · rw [if_neg (fun hc => h1 hc.1), if_neg h1]
    · have hval : validDated (t :: txs) = validDated txs := by
        simp [validDated, List.filter_cons, hnone]
      rw [hval]
      have hno : ¬ (t.type = ty ∧ inWin (t.date.map dayKey) s n) := by
        rintro ⟨-, hw⟩
        rw [hnone] at hw
        exact hw
      rw [if_neg hno, zero_add]

/-- The cumulative balance after a cons of daily points with nonempty tail. -/
theorem lastCum_cons (p : DailyPoint) (l : List DailyPoint) (h : l ≠ []) :
    lastCum (p :: l) = lastCum l := by
  cases l with
  | nil => exact absurd rfl h
  | cons b t => simp [lastCum, List.getLast?_cons_cons]

/-- The last cumulative balance of the daily series is the seed plus the sum
of the per-day balances over the range. -/
theorem lastCum_buildSeries (txs : List Transaction) :
    ∀ (n d : Nat) (c : ℚ), 0 < n →
      lastCum (buildSeries txs d n c) = c + rangeBal txs d n
  | 0, _, _, hn => absurd hn (by omega)
  | 1, d, c, _ => by
    show c + (sumOnDay txs "Income" d - sumOnDay txs "Expense" d) = c + rangeBal txs d 1
    simp only [rangeBal, rangeSum]
    ring
  | n + 2, d, c, _ => by
    have htail : buildSeries txs (d + 1) (n + 1)
        (c + (sumOnDay txs "Income" d - sumOnDay txs "Expense" d)) ≠ [] := by
      intro hcontra
      have hl := buildSeries_length txs (n + 1) (d + 1)
        (c + (sumOnDay txs "Income" d - sumOnDay txs "Expense" d))
      rw [hcontra] at hl
      simp at hl
    have e : buildSeries txs d (n + 2) c =
        ⟨d, sumOnDay txs "Income" d, sumOnDay txs "Expense" d,
          sumOnDay txs "Income" d - sumOnDay txs "Expense" d,
          c + (sumOnDay txs "Income" d - sumOnDay txs "Expense" d)⟩ ::
        buildSeries txs (d + 1) (n + 1)
          (c + (sumOnDay txs "Income" d - sumOnDay txs "Expense" d)) := rfl
    rw [e, lastCum_cons _ _ htail,
      lastCum_buildSeries txs (n + 1) (d + 1)
        (c + (sumOnDay txs "Income" d - sumOnDay txs "Expense" d)) (by omega)]
    simp only [rangeBal, rangeSum]
    ring

/-- C7: when every date-valid transaction's day falls inside the range
`[s, e]`, the cumulative balance at the last daily point equals the net
balance (income sum minus expense sum) of the date-valid records. -/
theorem c7_cumulative_roundtrip (txs : List Transaction) (s e : Nat) (hse : s ≤ e)
    (hcov : ∀ t ∈ txs, inWin (t.date.map dayKey) s (e + 1 - s) ∨ t.date = none) :
    lastCum (dailyPoints txs s e) = netBalance (validDated txs) := by
  unfold dailyPoints
  rw [lastCum_buildSeries txs (e + 1 - s) s 0 (by omega)]
  show 0 + (rangeSum txs "Income" s (e + 1 - s) - rangeSum txs "Expense" s (e + 1 - s)) = _
  rw [rangeSum_covers "Income" txs s (e + 1 - s) hcov,
    rangeSum_covers "Expense" txs s (e + 1 - s) hcov]
  show 0 + (sumByType "Income" (validDated txs) - sumByType "Expense" (validDated txs)) =
    sumByType "Income" (validDated txs) - sumByType "Expense" (validDated txs)
  ring

/-- Witness for C7 on the `exTxs` ledger over its full date span
(2024-03-01 through 2024-03-03). -/
theorem c7_cumulative_roundtrip_witness :
    lastCum (dailyPoints exTxs (toOrdinal ⟨2024, 3, 1⟩) (toOrdinal ⟨2024, 3, 3⟩)) =
      netBalance (validDated exTxs) :=
  c7_cumulative_roundtrip exTxs (toOrdinal ⟨2024, 3, 1⟩) (toOrdinal ⟨2024, 3, 3⟩)
    (by decide) (by decide)

/-- C8: whenever `history` returns entries, they are the first `limit`
elements of the user-and-kind-filtered records sorted by date descending;
that sorted sequence is a permutation of the filtered records, and in it
every pair respects the descending-date order with unknown-date records
after all dated ones. -/
theorem c8_history_sorted (allTx : List Transaction) (u ty : String) (limit : Nat)
    (l : List Transaction) (h : historyOp allTx u ty limit = .historyR l) :
    l = (sortDescByDate (histFilter allTx u ty)).take limit ∧
    (sortDescByDate (histFilter allTx u ty)).Perm (histFilter allTx u ty) ∧
    List.Pairwise dateDescLe (sortDescByDate (histFilter allTx u ty)) := by
  refine ⟨?_, List.perm_insertionSort _ _, List.sorted_insertionSort _ _⟩
  unfold historyOp at h
  split_ifs at h
  all_goals first
    | exact absurd h (fun hc => Report.noConfusion hc)
    | (injection h with h2; exact h2.symm)

/-- Witness for C8: `history` with limit 2 on the `exTxs` ledger returns the
2024-03-03 expense then the 2024-03-01 income; the sentinel-dated record
sorts last and is truncated away. -/
theorem c8_history_sorted_witness :
    [⟨some "alice", 10, some "lunch", "Food", "Expense", some ⟨⟨2024, 3, 3⟩, 600⟩⟩,
     ⟨some "alice", 100, some "pay", "Salary", "Income", some ⟨⟨2024, 3, 1⟩, 0⟩⟩] =
      (sortDescByDate (histFilter exTxs "alice" "All")).take 2 :=
  (c8_history_sorted exTxs "alice" "All" 2 _ (by with_unfolding_all rfl)).1

end Ledger
